import Mathlib

/-!
# Verification of the gameplay core of rust-one-more-line

A shallow embedding of `src/main.rs` (the attachment state machine, the
orbit integrator, the candidate-selection geometry and the collision
detector), with the rendering, audio and input plumbing omitted.  The
`f32` arithmetic of the source is embedded into the exact reals; the
vector operations mirror glam's `Vec2` (`from_angle`, `rotate`,
`angle_between`, `normalize`, `distance`), and Rust's
`Iterator::min_by` over a total comparison is mirrored by `min_by_key`
(a left fold that replaces the accumulator only on a strict decrease,
so the first minimum wins).
-/

namespace OneMoreLine

noncomputable section

open Real

/-- A 2D vector over the reals, mirroring glam's `Vec2` as the game uses it. -/
structure Vec2 where
  x : ℝ
  y : ℝ

namespace Vec2

@[ext] theorem ext {a b : Vec2} (hx : a.x = b.x) (hy : a.y = b.y) : a = b := by
  cases a; cases b; cases hx; cases hy; rfl

instance : Add Vec2 := ⟨fun a b => ⟨a.x + b.x, a.y + b.y⟩⟩

instance : Sub Vec2 := ⟨fun a b => ⟨a.x - b.x, a.y - b.y⟩⟩

instance : Neg Vec2 := ⟨fun a => ⟨-a.x, -a.y⟩⟩

instance : SMul ℝ Vec2 := ⟨fun c a => ⟨c * a.x, c * a.y⟩⟩

@[simp] theorem add_x (a b : Vec2) : (a + b).x = a.x + b.x := rfl

@[simp] theorem add_y (a b : Vec2) : (a + b).y = a.y + b.y := rfl

@[simp] theorem sub_x (a b : Vec2) : (a - b).x = a.x - b.x := rfl

@[simp] theorem sub_y (a b : Vec2) : (a - b).y = a.y - b.y := rfl

@[simp] theorem smul_x (c : ℝ) (a : Vec2) : (c • a).x = c * a.x := rfl

@[simp] theorem smul_y (c : ℝ) (a : Vec2) : (c • a).y = c * a.y := rfl

@[simp] theorem mk_x (u v : ℝ) : (Vec2.mk u v).x = u := rfl

@[simp] theorem mk_y (u v : ℝ) : (Vec2.mk u v).y = v := rfl

/-- glam `Vec2::dot`. -/
def dot (a b : Vec2) : ℝ := a.x * b.x + a.y * b.y

/-- glam `Vec2::perp_dot` (the 2D cross product). -/
def perp_dot (a b : Vec2) : ℝ := a.x * b.y - a.y * b.x

/-- glam `Vec2::length_squared`. -/
def length_squared (a : Vec2) : ℝ := a.x * a.x + a.y * a.y

/-- glam `Vec2::length`. -/
def length (a : Vec2) : ℝ := Real.sqrt a.length_squared

/-- glam `Vec2::distance`: `(self - rhs).length()`. -/
def distance (a b : Vec2) : ℝ := (a - b).length

/-- glam `Vec2::distance_squared`: `(self - rhs).length_squared()`. -/
def distance_squared (a b : Vec2) : ℝ := (a - b).length_squared

/-- glam `Vec2::from_angle`: `(cos θ, sin θ)`. -/
def from_angle (θ : ℝ) : Vec2 := ⟨Real.cos θ, Real.sin θ⟩

/-- glam `Vec2::rotate`: treats `a` as a rotor and rotates `v` by its angle
(complex multiplication). -/
def rotate (a v : Vec2) : Vec2 := ⟨a.x * v.x - a.y * v.y, a.y * v.x + a.x * v.y⟩

/-- glam `Vec2::normalize`: `self * self.length().recip()`. -/
def normalize (a : Vec2) : Vec2 := (1 / a.length) • a

/-- glam `Vec2::angle_between`: `acos` of the normalized dot product, with the
sign of the perpendicular dot product (glam multiplies by
`signum(perp_dot)`, and `signum 0 = 1` for `f32` zero). -/
def angle_between (a b : Vec2) : ℝ :=
  if a.perp_dot b < 0 then
    -Real.arccos (a.dot b / Real.sqrt (a.length_squared * b.length_squared))
  else
    Real.arccos (a.dot b / Real.sqrt (a.length_squared * b.length_squared))

theorem length_squared_nonneg (a : Vec2) : 0 ≤ a.length_squared :=
  add_nonneg (mul_self_nonneg _) (mul_self_nonneg _)

theorem length_nonneg (a : Vec2) : 0 ≤ a.length := Real.sqrt_nonneg _

theorem length_squared_eq_zero {a : Vec2} (h : a.length_squared = 0) : a = ⟨0, 0⟩ := by
  unfold length_squared at h
  have hx : a.x = 0 := by nlinarith [mul_self_nonneg a.x, mul_self_nonneg a.y]
  have hy : a.y = 0 := by nlinarith [mul_self_nonneg a.x, mul_self_nonneg a.y]
  exact ext hx hy

theorem sq_length (a : Vec2) : a.length ^ 2 = a.length_squared :=
  Real.sq_sqrt (length_squared_nonneg a)

/-- Lagrange / Cauchy-Schwarz for the embedded vectors. -/
theorem dot_sq_le (a b : Vec2) : (a.dot b) ^ 2 ≤ a.length_squared * b.length_squared := by
  unfold dot length_squared
  nlinarith [sq_nonneg (a.x * b.y - a.y * b.x)]

theorem abs_cos_arg_le_one (a b : Vec2) :
    |a.dot b / Real.sqrt (a.length_squared * b.length_squared)| ≤ 1 := by
  set s := Real.sqrt (a.length_squared * b.length_squared) with hs
  have hs0 : 0 ≤ s := Real.sqrt_nonneg _
  rcases eq_or_lt_of_le hs0 with h0 | hpos
  · rw [← h0, div_zero, abs_zero]; norm_num
  · have habs : |a.dot b| ≤ s := by
      rw [hs, ← Real.sqrt_sq_eq_abs]
      exact Real.sqrt_le_sqrt (dot_sq_le a b)
    rw [abs_div, abs_of_pos hpos]
    exact (div_le_one hpos).mpr habs

/-- The cosine of glam's `angle_between` is the normalized dot product. -/
theorem cos_angle_between (a b : Vec2) :
    Real.cos (a.angle_between b) =
      a.dot b / Real.sqrt (a.length_squared * b.length_squared) := by
  have h := abs_le.mp (abs_cos_arg_le_one a b)
  unfold angle_between
  split
  · rw [Real.cos_neg, Real.cos_arccos h.1 h.2]
  · rw [Real.cos_arccos h.1 h.2]

theorem length_squared_from_angle (θ : ℝ) : (from_angle θ).length_squared = 1 := by
  unfold from_angle length_squared
  simp only [mk_x, mk_y]
  nlinarith [Real.sin_sq_add_cos_sq θ]

theorem length_from_angle (θ : ℝ) : (from_angle θ).length = 1 := by
  unfold length
  rw [length_squared_from_angle, Real.sqrt_one]

theorem normalize_from_angle (θ : ℝ) : (from_angle θ).normalize = from_angle θ := by
  unfold normalize
  rw [length_from_angle]
  ext <;> simp

theorem rotate_length_squared (θ : ℝ) (v : Vec2) :
    ((from_angle θ).rotate v).length_squared = v.length_squared := by
  unfold from_angle rotate length_squared
  simp only [mk_x, mk_y]
  nlinarith [Real.sin_sq_add_cos_sq θ]

theorem rotate_rotate (a b : ℝ) (v : Vec2) :
    (from_angle a).rotate ((from_angle b).rotate v) = (from_angle (a + b)).rotate v := by
  unfold from_angle rotate
  ext <;> simp [Real.cos_add, Real.sin_add] <;> ring

@[simp] theorem from_angle_zero : from_angle 0 = ⟨1, 0⟩ := by
  unfold from_angle; ext <;> simp

@[simp] theorem one_zero_rotate (v : Vec2) : (Vec2.mk 1 0).rotate v = v := by
  unfold rotate; ext <;> simp

theorem add_comm' (a b : Vec2) : a + b = b + a := by ext <;> simp <;> ring

theorem add_sub_cancel' (a b : Vec2) : a + b - b = a := by ext <;> simp

theorem distance_comm (a b : Vec2) : a.distance b = b.distance a := by
  unfold distance length
  congr 1
  unfold length_squared
  simp only [sub_x, sub_y]
  ring

theorem distance_nonneg (a b : Vec2) : 0 ≤ a.distance b := Real.sqrt_nonneg _

theorem distance_sq (a b : Vec2) : a.distance b ^ 2 = a.distance_squared b := by
  unfold distance distance_squared
  exact sq_length _

end Vec2

/-! ## The game's data model (src/main.rs lines 10-14, 26-31, 68-75, 118-123, 145-154) -/

def SCREEN_HEIGHT : ℝ := 848

def SCREEN_WIDTH : ℝ := 480

def AREA_HEIGHT : ℝ := 5

def AREA_WIDTH : ℝ := SCREEN_WIDTH / SCREEN_HEIGHT * AREA_HEIGHT

def MAX_TIME_OUTSIDE : ℝ := 0.5

/-- `struct Player` (the render-only image is omitted). -/
structure Player where
  pos : Vec2
  speed : ℝ
  facing : ℝ
  bbox : ℝ
  time_disconnected : ℝ

/-- `Player::new` (src/main.rs lines 78-86). -/
def Player.new : Player :=
  { pos := ⟨0, 0⟩, speed := 4.0, facing := 0.0, bbox := 0.05, time_disconnected := 0.0 }

/-- `struct Node`; the color palette index stands in for `graphics::Color`. -/
structure Node where
  pos : Vec2
  radius : ℝ
  color : ℕ

/-- `enum Attach` (src/main.rs lines 26-31). -/
inductive Attach where
  | SUCCESS : Node → Bool → Attach
  | TARGET : Node → Bool → Attach
  | None : Attach

/-- `struct State`, restricted to the simulation fields (assets and the
screen dimensions feed only the renderer). -/
structure State where
  player : Player
  nodes : List Node
  attached_node : Attach
  prev_points : List Vec2

/-! ## Geometry helpers (src/main.rs lines 170-205) -/

/-- `get_cross_point` (lines 170-177): the projection of the node onto the
player's forward ray's line. -/
def get_cross_point (player : Player) (node : Node) : Vec2 :=
  let vel := (Vec2.from_angle (π / 2 - player.facing)).normalize
  let player_to_node := node.pos - player.pos
  let angle := vel.angle_between player_to_node
  let dist := (Real.cos angle * player_to_node.length) • vel
  player.pos + dist

/-- `get_is_behind` (lines 178-183). -/
def get_is_behind (player : Player) (node : Node) : Bool :=
  let vel := (Vec2.from_angle (π / 2 - player.facing)).normalize
  let player_to_node := node.pos - player.pos
  let angle := vel.angle_between player_to_node
  decide (Real.cos angle < 0)

/-- `filter_deadly_nodes` (lines 185-192): the viability test for targeting. -/
def filter_deadly_nodes (player : Player) (node : Node) : Bool :=
  let cross_point := get_cross_point player node
  let is_behind := get_is_behind player node
  let is_outside := decide (|cross_point.x| > AREA_WIDTH / 2)
  let is_hitting := decide (node.pos.distance cross_point < player.bbox + node.radius)
  let is_far_away := decide (player.pos.distance node.pos > 2.0)
  !(is_outside || is_hitting || is_far_away || is_behind)

/-- `filter_hitting_nodes` (lines 194-198): the fallback filter. -/
def filter_hitting_nodes (player : Player) (node : Node) : Bool :=
  let cross_point := get_cross_point player node
  let is_hitting := decide (node.pos.distance cross_point < player.bbox + node.radius)
  !is_hitting

/-- `get_is_clockwise` (lines 200-205). -/
def get_is_clockwise (player : Player) (node : Node) : Bool :=
  let delta := player.pos - node.pos
  let angle := delta.angle_between (Vec2.from_angle (π / 2 - player.facing))
  decide (angle < 0)

/-! ## The orbit integrator (src/main.rs lines 106-115) -/

/-- `Player::orbit`: rotate the offset `pos - node.pos` about the node by
`mult * 2π * dt / period`, `period = 2π * radius / speed`; the new facing is
computed from `delta`, the offset as captured BEFORE the rotation. -/
def Player.orbit (p : Player) (node : Node) (dt : ℝ) (is_clockwise : Bool) : Player :=
  let mult : ℝ := if is_clockwise then -1.0 else 1.0
  let fac : Vec2 := if is_clockwise then ⟨-1, 0⟩ else ⟨1, 0⟩
  let radius := node.pos.distance p.pos
  let circ := 2 * π * radius
  let period := circ / p.speed
  let delta := p.pos - node.pos
  { p with
    pos := (Vec2.from_angle (mult * 2 * π * dt / period)).rotate delta + node.pos
    facing := delta.angle_between fac }

/-! ## Attachment state machine (src/main.rs lines 249-305) -/

/-- Rust's `Iterator::min_by` under a total order on keys: a left fold that
replaces the accumulator only on a strict decrease, so of several minima the
first wins (`core::cmp::min_by` keeps `v1` unless the comparison is
`Greater`). -/
def min_by_key {α : Type} (l : List α) (key : α → ℝ) : Option α :=
  match l with
  | [] => Option.none
  | a :: rest => Option.some (rest.foldl (fun acc n => if key n < key acc then n else acc) a)

/-- The alignment cosine tested at lines 269-271 and 324-326:
`Vec2::from_angle(PI/2 - facing).angle_between(node.pos - player.pos).cos()`. -/
def alignCos (p : Player) (n : Node) : ℝ :=
  Real.cos ((Vec2.from_angle (π / 2 - p.facing)).angle_between (n.pos - p.pos))

/-- The viable candidates: `nodes.iter().filter(filter_deadly_nodes)` (line 255). -/
def candidates (s : State) : List Node := s.nodes.filter (filter_deadly_nodes s.player)

/-- The selection key of lines 256-266: squared distance from the player to
the candidate's cross point. -/
def selKey (s : State) (n : Node) : ℝ := (get_cross_point s.player n).distance_squared s.player.pos

/-- The `min_by` of lines 252-266. -/
def viableMin (s : State) : Option Node := min_by_key (candidates s) (selKey s)

/-- The fallback `min_by` of lines 281-290: nearest (by squared distance)
node passing `filter_hitting_nodes`. -/
def fallbackMin (s : State) : Option Node :=
  min_by_key (s.nodes.filter (filter_hitting_nodes s.player))
    (fun n => n.pos.distance_squared s.player.pos)

/-- `State::handle_button_press` (lines 249-305). -/
def State.handle_button_press (s : State) : State :=
  match s.attached_node with
  | Attach.None =>
    match viableMin s with
    | Option.some n =>
      if |alignCos s.player n| < 0.1 then
        { s with
          attached_node := Attach.SUCCESS n (get_is_clockwise s.player n)
          player := { s.player with time_disconnected := 0.0 } }
      else
        { s with attached_node := Attach.TARGET n (get_is_clockwise s.player n) }
    | Option.none =>
      match fallbackMin s with
      | Option.some n =>
        { s with
          attached_node := Attach.SUCCESS n (get_is_clockwise s.player n)
          player := { s.player with time_disconnected := 0.0 } }
      | Option.none => { s with attached_node := Attach.None }
  | _ => s

/-! ## Collision detector, reset, trail, tick (src/main.rs lines 230-247, 307-313, 317-354) -/

/-- `State::handle_collision` (lines 230-247). -/
def State.handle_collision (s : State) : Bool :=
  let is_hitting_side :=
    match s.attached_node with
    | Attach.SUCCESS _ _ => false
    | _ => decide (|(|s.player.pos.x| - AREA_WIDTH / 2)| < s.player.bbox ∧
        s.player.time_disconnected > 0.1)
  let is_hitting_node :=
    s.nodes.any (fun n => decide (s.player.pos.distance n.pos < s.player.bbox + n.radius))
  let is_outside_too_long :=
    decide (|s.player.pos.x| > AREA_WIDTH / 2 ∧ s.player.time_disconnected > MAX_TIME_OUTSIDE)
  is_hitting_side || is_hitting_node || is_outside_too_long

/-- `State::reset` (lines 307-313). -/
def State.reset (s : State) : State :=
  { s with
    player := { s.player with pos := ⟨0, 0⟩, facing := 0.0, time_disconnected := 0.0 }
    attached_node := Attach.None
    prev_points := [] }

/-- The trail update of lines 340-343: push, then keep the last 100 points. -/
def trail_push (tr : List Vec2) (p : Vec2) : List Vec2 :=
  let tr2 := tr ++ [p]
  if tr2.length > 100 then tr2.drop (tr2.length - 100) else tr2

/-- Lines 319-349 of `update`: the motion step (orbit, targeting
auto-transition or free flight), the trail push, and the
`time_disconnected` accumulation for non-orbiting states. -/
def motionPhase (s : State) (dt : ℝ) : State :=
  let s1 : State :=
    match s.attached_node with
    | Attach.SUCCESS node is_clockwise => { s with player := s.player.orbit node dt is_clockwise }
    | Attach.TARGET node is_clockwise =>
      if |alignCos s.player node| < 0.1 then
        { s with
          attached_node := Attach.SUCCESS node is_clockwise
          player := Player.orbit { s.player with time_disconnected := 0.0 } node dt is_clockwise }
      else
        { s with player := { s.player with
            pos := s.player.pos + (s.player.speed * dt) • Vec2.from_angle (π / 2 - s.player.facing) } }
    | Attach.None =>
      { s with player := { s.player with
          pos := s.player.pos + (s.player.speed * dt) • Vec2.from_angle (π / 2 - s.player.facing) } }
  let s2 : State := { s1 with prev_points := trail_push s1.prev_points s1.player.pos }
  match s2.attached_node with
  | Attach.SUCCESS _ _ => s2
  | _ => { s2 with player := { s2.player with
      time_disconnected := s2.player.time_disconnected + dt } }

/-- `State::update` (lines 317-354): motion phase, then the collision check
with its reset. -/
def State.update (s : State) (dt : ℝ) : State :=
  let s3 := motionPhase s dt
  if s3.handle_collision = true then s3.reset else s3

/-- `key_up_event` for Space (lines 492-500): release detaches unconditionally. -/
def State.handle_button_release (s : State) : State :=
  { s with attached_node := Attach.None }

/-- The world as built at startup (`State::new`, lines 208-228), with the
node field a parameter (the source seeds it from the wall clock). -/
def State.init (nodes : List Node) : State :=
  { player := Player.new, nodes := nodes, attached_node := Attach.None, prev_points := [] }

/-- The states the simulation can reach from startup under ticks, attach
presses and releases. -/
inductive Reachable (nodes : List Node) : State → Prop where
  | init : Reachable nodes (State.init nodes)
  | update (s : State) (dt : ℝ) : Reachable nodes s → Reachable nodes (s.update dt)
  | press (s : State) : Reachable nodes s → Reachable nodes s.handle_button_press
  | release (s : State) : Reachable nodes s → Reachable nodes s.handle_button_release

/-- Iterated orbit steps, for the conservation statements. -/
def orbitSteps (p : Player) (node : Node) (dts : List ℝ) (is_clockwise : Bool) : Player :=
  dts.foldl (fun q dt => q.orbit node dt is_clockwise) p

/-! ## Helper lemmas about the geometry -/

/-- The cross point is `pos + (forward . (node - pos)) * forward`: the forward
vector is unit, so `cos(angle) * |node - pos|` is the signed projection. -/
theorem get_cross_point_eq (p : Player) (n : Node) :
    get_cross_point p n =
      p.pos + ((Vec2.from_angle (π / 2 - p.facing)).dot (n.pos - p.pos)) •
        Vec2.from_angle (π / 2 - p.facing) := by
  simp only [get_cross_point, Vec2.normalize_from_angle]
  have hcos := Vec2.cos_angle_between (Vec2.from_angle (π / 2 - p.facing)) (n.pos - p.pos)
  rw [Vec2.length_squared_from_angle, one_mul] at hcos
  rw [hcos]
  congr 2
  unfold Vec2.length
  rcases eq_or_lt_of_le (Vec2.length_squared_nonneg (n.pos - p.pos)) with h0 | hpos
  · have hw0 : n.pos - p.pos = ⟨0, 0⟩ := Vec2.length_squared_eq_zero h0.symm
    rw [← h0, Real.sqrt_zero, div_zero, zero_mul, hw0]
    unfold Vec2.dot
    simp
  · have hs : Real.sqrt (n.pos - p.pos).length_squared ≠ 0 :=
      ne_of_gt (Real.sqrt_pos.mpr hpos)
    field_simp

theorem behind_eq (p : Player) (n : Node) :
    get_is_behind p n =
      decide ((Vec2.from_angle (π / 2 - p.facing)).dot (n.pos - p.pos) /
        Real.sqrt ((n.pos - p.pos).length_squared) < 0) := by
  simp only [get_is_behind, Vec2.normalize_from_angle]
  rw [Vec2.cos_angle_between, Vec2.length_squared_from_angle, one_mul]

theorem alignCos_eq (p : Player) (n : Node) :
    alignCos p n =
      (Vec2.from_angle (π / 2 - p.facing)).dot (n.pos - p.pos) /
        Real.sqrt ((n.pos - p.pos).length_squared) := by
  simp only [alignCos]
  rw [Vec2.cos_angle_between, Vec2.length_squared_from_angle, one_mul]

/-- Removing the projection along a unit vector does not increase the length. -/
theorem Vec2.proj_sub_length_le (u w : Vec2) (husq : u.length_squared = 1) :
    (w - (u.dot w) • u).length ≤ w.length := by
  unfold Vec2.length
  apply Real.sqrt_le_sqrt
  have husq' : u.x * u.x + u.y * u.y = 1 := husq
  simp only [Vec2.length_squared, Vec2.dot, Vec2.sub_x, Vec2.sub_y, Vec2.smul_x, Vec2.smul_y]
  nlinarith [sq_nonneg (u.x * w.x + u.y * w.y), husq']

/-- The node is at least as far from the player as from its projection on the
player's forward line. -/
theorem dist_cross_le (p : Player) (n : Node) :
    n.pos.distance (get_cross_point p n) ≤ n.pos.distance p.pos := by
  rw [get_cross_point_eq]
  have h := Vec2.proj_sub_length_le (Vec2.from_angle (π / 2 - p.facing)) (n.pos - p.pos)
    (Vec2.length_squared_from_angle (π / 2 - p.facing))
  have hdiff :
      n.pos - (p.pos + ((Vec2.from_angle (π / 2 - p.facing)).dot (n.pos - p.pos)) •
        Vec2.from_angle (π / 2 - p.facing)) =
      (n.pos - p.pos) - ((Vec2.from_angle (π / 2 - p.facing)).dot (n.pos - p.pos)) •
        Vec2.from_angle (π / 2 - p.facing) := by
    ext <;> simp <;> ring
  unfold Vec2.distance
  rw [hdiff]
  exact h

/-! ## Helper lemmas about the selection fold -/

theorem min_fold_spec {α : Type} (key : α → ℝ) (l : List α) :
    ∀ acc : α,
      (key (l.foldl (fun a n => if key n < key a then n else a) acc) ≤ key acc ∧
        ∀ m ∈ l, key (l.foldl (fun a n => if key n < key a then n else a) acc) ≤ key m) ∧
      (l.foldl (fun a n => if key n < key a then n else a) acc = acc ∨
        ∃ l1 l2, l = l1 ++ (l.foldl (fun a n => if key n < key a then n else a) acc) :: l2 ∧
          key (l.foldl (fun a n => if key n < key a then n else a) acc) < key acc ∧
          ∀ m ∈ l1, key (l.foldl (fun a n => if key n < key a then n else a) acc) < key m) := by
  induction l with
  | nil =>
    intro acc
    refine ⟨⟨le_refl _, ?_⟩, Or.inl rfl⟩
    intro m hm
    exact absurd hm (List.not_mem_nil m)
  | cons b bs ih =>
    intro acc
    simp only [List.foldl_cons]
    by_cases hb : key b < key acc
    · rw [if_pos hb]
      obtain ⟨⟨h1, h2⟩, h3⟩ := ih b
      refine ⟨⟨h1.trans hb.le, ?_⟩, ?_⟩
      · intro m hm
        rcases List.mem_cons.mp hm with rfl | hm'
        · exact h1
        · exact h2 m hm'
      · rcases h3 with he | ⟨l1, l2, hdec, hlt, hall⟩
        · right
          refine ⟨[], bs, ?_, ?_, ?_⟩
          · rw [he]; rfl
          · rw [he]; exact hb
          · intro m hm; exact absurd hm (List.not_mem_nil m)
        · right
          refine ⟨b :: l1, l2, ?_, hlt.trans hb, ?_⟩
          · rw [List.cons_append, ← hdec]
          · intro m hm
            rcases List.mem_cons.mp hm with rfl | hm'
            · exact hlt
            · exact hall m hm'
    · rw [if_neg hb]
      push_neg at hb
      obtain ⟨⟨h1, h2⟩, h3⟩ := ih acc
      refine ⟨⟨h1, ?_⟩, ?_⟩
      · intro m hm
        rcases List.mem_cons.mp hm with rfl | hm'
        · exact h1.trans hb
        · exact h2 m hm'
      · rcases h3 with he | ⟨l1, l2, hdec, hlt, hall⟩
        · exact Or.inl he
        · right
          refine ⟨b :: l1, l2, ?_, hlt, ?_⟩
          · rw [List.cons_append, ← hdec]
          · intro m hm
            rcases List.mem_cons.mp hm with rfl | hm'
            · exact hlt.trans_le hb
            · exact hall m hm'

/-- What `min_by` returns: a member, minimal, and the first of the minima
(everything before it in the list is strictly larger). -/
theorem min_by_key_spec {α : Type} (l : List α) (key : α → ℝ) (r : α)
    (h : min_by_key l key = Option.some r) :
    r ∈ l ∧ (∀ m ∈ l, key r ≤ key m) ∧
      ∃ l1 l2, l = l1 ++ r :: l2 ∧ ∀ m ∈ l1, key r < key m := by
  match l, h with
  | a :: rest, h =>
    have hr : rest.foldl (fun acc n => if key n < key acc then n else acc) a = r :=
      Option.some.inj h
    obtain ⟨⟨h1, h2⟩, h3⟩ := min_fold_spec key rest a
    rw [hr] at h1 h2 h3
    rcases h3 with he | ⟨l1, l2, hdec, hlt, hall⟩
    · refine ⟨?_, ?_, [], rest, ?_, ?_⟩
      · rw [← he]; exact List.mem_cons_self r rest
      · intro m hm
        rcases List.mem_cons.mp hm with rfl | hm'
        · rw [he]
        · exact h2 m hm'
      · rw [← he]; rfl
      · intro m hm; exact absurd hm (List.not_mem_nil m)
    · refine ⟨?_, ?_, a :: l1, l2, ?_, ?_⟩
      · exact List.mem_cons_of_mem a (hdec ▸ List.mem_append_right l1 (List.mem_cons_self r l2))
      · intro m hm
        rcases List.mem_cons.mp hm with rfl | hm'
        · exact hlt.le
        · exact h2 m hm'
      · rw [List.cons_append, ← hdec]
      · intro m hm
        rcases List.mem_cons.mp hm with rfl | hm'
        · exact hlt
        · exact hall m hm'

theorem min_by_key_eq_none {α : Type} (l : List α) (key : α → ℝ) :
    min_by_key l key = Option.none ↔ l = [] := by
  cases l <;> simp [min_by_key]

/-! ## Unfolding the filters into propositions -/

theorem filter_deadly_iff (p : Player) (n : Node) :
    filter_deadly_nodes p n = true ↔
      (0 ≤ Real.cos (((Vec2.from_angle (π / 2 - p.facing)).normalize).angle_between
          (n.pos - p.pos)) ∧
        |(get_cross_point p n).x| ≤ AREA_WIDTH / 2 ∧
        p.bbox + n.radius ≤ n.pos.distance (get_cross_point p n) ∧
        p.pos.distance n.pos ≤ 2.0) := by
  simp only [filter_deadly_nodes, get_is_behind, Bool.not_eq_true', Bool.or_eq_false_iff,
    decide_eq_false_iff_not, not_lt]
  tauto

theorem filter_hitting_iff (p : Player) (n : Node) :
    filter_hitting_nodes p n = true ↔
      p.bbox + n.radius ≤ n.pos.distance (get_cross_point p n) := by
  simp only [filter_hitting_nodes, Bool.not_eq_true', decide_eq_false_iff_not, not_lt]

theorem mem_candidates_iff (s : State) (n : Node) :
    n ∈ candidates s ↔
      (n ∈ s.nodes ∧
        0 ≤ Real.cos (((Vec2.from_angle (π / 2 - s.player.facing)).normalize).angle_between
          (n.pos - s.player.pos)) ∧
        |(get_cross_point s.player n).x| ≤ AREA_WIDTH / 2 ∧
        s.player.bbox + n.radius ≤ n.pos.distance (get_cross_point s.player n) ∧
        s.player.pos.distance n.pos ≤ 2.0) := by
  unfold candidates
  rw [List.mem_filter, filter_deadly_iff]

/-! ## Structural lemmas about the state operations -/

theorem orbit_speed (p : Player) (n : Node) (dt : ℝ) (c : Bool) :
    (p.orbit n dt c).speed = p.speed := rfl

theorem orbit_bbox (p : Player) (n : Node) (dt : ℝ) (c : Bool) :
    (p.orbit n dt c).bbox = p.bbox := rfl

theorem orbit_time (p : Player) (n : Node) (dt : ℝ) (c : Bool) :
    (p.orbit n dt c).time_disconnected = p.time_disconnected := rfl

/-- An attach press in a non-`Detached` state leaves the whole world alone
(the handler matches only `Attach::None`). -/
theorem press_noop (s : State) (h : s.attached_node ≠ Attach.None) :
    s.handle_button_press = s := by
  unfold State.handle_button_press
  match hA : s.attached_node with
  | Attach.SUCCESS n d => rfl
  | Attach.TARGET n d => rfl
  | Attach.None => exact absurd hA h

theorem press_fields (s : State) :
    s.handle_button_press.nodes = s.nodes ∧
      s.handle_button_press.player.pos = s.player.pos ∧
      s.handle_button_press.player.bbox = s.player.bbox ∧
      s.handle_button_press.player.speed = s.player.speed ∧
      s.handle_button_press.player.facing = s.player.facing ∧
      s.handle_button_press.prev_points = s.prev_points := by
  rcases hA : s.attached_node with ⟨n, d⟩ | ⟨n, d⟩ | _
  · rw [press_noop s (by rw [hA]; simp)]
    exact ⟨rfl, rfl, rfl, rfl, rfl, rfl⟩
  · rw [press_noop s (by rw [hA]; simp)]
    exact ⟨rfl, rfl, rfl, rfl, rfl, rfl⟩
  · rcases hv : viableMin s with _ | n
    · rcases hf : fallbackMin s with _ | n
      · simp only [State.handle_button_press, hA, hv, hf]
        refine ⟨?_, ?_, ?_, ?_, ?_, ?_⟩ <;> trivial
      · simp only [State.handle_button_press, hA, hv, hf]
        refine ⟨?_, ?_, ?_, ?_, ?_, ?_⟩ <;> trivial
    · simp only [State.handle_button_press, hA, hv]
      split_ifs <;> refine ⟨?_, ?_, ?_, ?_, ?_, ?_⟩ <;> trivial

theorem reset_fields (s : State) :
    s.reset.nodes = s.nodes ∧ s.reset.attached_node = Attach.None ∧
      s.reset.player.bbox = s.player.bbox ∧ s.reset.player.speed = s.player.speed ∧
      s.reset.player.time_disconnected = 0.0 := ⟨rfl, rfl, rfl, rfl, rfl⟩

theorem motionPhase_success (s : State) (dt : ℝ) (n : Node) (d : Bool)
    (hA : s.attached_node = Attach.SUCCESS n d) :
    motionPhase s dt =
      { s with
        player := s.player.orbit n dt d
        prev_points := trail_push s.prev_points (s.player.orbit n dt d).pos } := by
  simp only [motionPhase, hA]

theorem motionPhase_target_aligned (s : State) (dt : ℝ) (n : Node) (d : Bool)
    (hA : s.attached_node = Attach.TARGET n d) (hal : |alignCos s.player n| < 0.1) :
    motionPhase s dt =
      { s with
        attached_node := Attach.SUCCESS n d
        player := Player.orbit { s.player with time_disconnected := 0.0 } n dt d
        prev_points := trail_push s.prev_points
          (Player.orbit { s.player with time_disconnected := 0.0 } n dt d).pos } := by
  simp only [motionPhase, hA, if_pos hal]

theorem motionPhase_target_not_aligned (s : State) (dt : ℝ) (n : Node) (d : Bool)
    (hA : s.attached_node = Attach.TARGET n d) (hal : ¬ |alignCos s.player n| < 0.1) :
    motionPhase s dt =
      { s with
        player := { s.player with
          pos := s.player.pos + (s.player.speed * dt) • Vec2.from_angle (π / 2 - s.player.facing)
          time_disconnected := s.player.time_disconnected + dt }
        prev_points := trail_push s.prev_points
          (s.player.pos + (s.player.speed * dt) • Vec2.from_angle (π / 2 - s.player.facing)) } := by
  simp only [motionPhase, hA, if_neg hal]

theorem motionPhase_detached (s : State) (dt : ℝ) (hA : s.attached_node = Attach.None) :
    motionPhase s dt =
      { s with
        player := { s.player with
          pos := s.player.pos + (s.player.speed * dt) • Vec2.from_angle (π / 2 - s.player.facing)
          time_disconnected := s.player.time_disconnected + dt }
        prev_points := trail_push s.prev_points
          (s.player.pos + (s.player.speed * dt) • Vec2.from_angle (π / 2 - s.player.facing)) } := by
  simp only [motionPhase, hA]

theorem motionPhase_nodes (s : State) (dt : ℝ) : (motionPhase s dt).nodes = s.nodes := by
  match hA : s.attached_node with
  | Attach.SUCCESS n d => rw [motionPhase_success s dt n d hA]
  | Attach.TARGET n d =>
    by_cases hal : |alignCos s.player n| < 0.1
    · rw [motionPhase_target_aligned s dt n d hA hal]
    · rw [motionPhase_target_not_aligned s dt n d hA hal]
  | Attach.None => rw [motionPhase_detached s dt hA]

theorem motionPhase_bbox (s : State) (dt : ℝ) :
    (motionPhase s dt).player.bbox = s.player.bbox := by
  match hA : s.attached_node with
  | Attach.SUCCESS n d => rw [motionPhase_success s dt n d hA]; rfl
  | Attach.TARGET n d =>
    by_cases hal : |alignCos s.player n| < 0.1
    · rw [motionPhase_target_aligned s dt n d hA hal]; rfl
    · rw [motionPhase_target_not_aligned s dt n d hA hal]
  | Attach.None => rw [motionPhase_detached s dt hA]

theorem collision_false_no_hit (s : State) (h : s.handle_collision = false) :
    ∀ m ∈ s.nodes, s.player.bbox + m.radius ≤ s.player.pos.distance m.pos := by
  unfold State.handle_collision at h
  simp only [Bool.or_eq_false_iff] at h
  have hn := h.1.2
  rw [List.any_eq_false] at hn
  intro m hm
  have hmm := hn m hm
  simp only [decide_eq_true_eq] at hmm
  exact not_lt.mp hmm

theorem update_eq (s : State) (dt : ℝ) :
    s.update dt =
      if (motionPhase s dt).handle_collision = true then (motionPhase s dt).reset
      else motionPhase s dt := rfl

theorem eta_none (s : State) (h : s.attached_node = Attach.None) :
    { s with attached_node := Attach.None } = s := by
  cases s with
  | mk p ns att pp =>
    cases att
    · exact absurd h (by simp)
    · exact absurd h (by simp)
    · rfl

/-! ## Orbit rotation lemmas -/

theorem orbit_pos (p : Player) (node : Node) (dt : ℝ) (cw : Bool) :
    (p.orbit node dt cw).pos =
      (Vec2.from_angle ((if cw then (-1.0 : ℝ) else 1.0) * 2 * π * dt /
        (2 * π * node.pos.distance p.pos / p.speed))).rotate (p.pos - node.pos) + node.pos := rfl

theorem orbit_offset (p : Player) (node : Node) (dt : ℝ) (cw : Bool) :
    (p.orbit node dt cw).pos - node.pos =
      (Vec2.from_angle ((if cw then (-1.0 : ℝ) else 1.0) * 2 * π * dt /
        (2 * π * node.pos.distance p.pos / p.speed))).rotate (p.pos - node.pos) := by
  rw [orbit_pos]
  exact Vec2.add_sub_cancel' _ _

theorem rotate_length (θ : ℝ) (v : Vec2) :
    ((Vec2.from_angle θ).rotate v).length = v.length := by
  unfold Vec2.length
  rw [Vec2.rotate_length_squared]

/-- The orbit step is an isometry about the node: the radius is conserved. -/
theorem orbit_dist (p : Player) (node : Node) (dt : ℝ) (cw : Bool) :
    node.pos.distance (p.orbit node dt cw).pos = node.pos.distance p.pos := by
  rw [Vec2.distance_comm, Vec2.distance_comm node.pos p.pos]
  unfold Vec2.distance
  rw [orbit_offset]
  exact rotate_length _ _

theorem orbitSteps_nil (p : Player) (node : Node) (cw : Bool) :
    orbitSteps p node [] cw = p := rfl

theorem orbitSteps_cons (p : Player) (node : Node) (dt : ℝ) (dts : List ℝ) (cw : Bool) :
    orbitSteps p node (dt :: dts) cw = orbitSteps (p.orbit node dt cw) node dts cw := rfl

theorem orbitSteps_dist (p : Player) (node : Node) (dts : List ℝ) (cw : Bool) :
    node.pos.distance (orbitSteps p node dts cw).pos = node.pos.distance p.pos := by
  induction dts generalizing p with
  | nil => rfl
  | cons dt dts ih => rw [orbitSteps_cons, ih, orbit_dist]

theorem orbitSteps_speed (p : Player) (node : Node) (dts : List ℝ) (cw : Bool) :
    (orbitSteps p node dts cw).speed = p.speed := by
  induction dts generalizing p with
  | nil => rfl
  | cons dt dts ih => rw [orbitSteps_cons, ih, orbit_speed]

/-- Orbit steps compose: the total rotation angle is `mult * speed * (sum dt) / r`. -/
theorem orbitSteps_offset (node : Node) (cw : Bool) (dts : List ℝ) :
    ∀ p : Player, 0 < node.pos.distance p.pos → 0 < p.speed →
      (orbitSteps p node dts cw).pos - node.pos =
        (Vec2.from_angle ((if cw then (-1.0 : ℝ) else 1.0) * p.speed * dts.sum /
          node.pos.distance p.pos)).rotate (p.pos - node.pos) := by
  induction dts with
  | nil =>
    intro p hr hs
    have h0 : (if cw then (-1.0 : ℝ) else 1.0) * p.speed * ([] : List ℝ).sum /
        node.pos.distance p.pos = 0 := by
      simp
    rw [orbitSteps_nil, h0, Vec2.from_angle_zero, Vec2.one_zero_rotate]
  | cons dt dts ih =>
    intro p hr hs
    have hr' : 0 < node.pos.distance (p.orbit node dt cw).pos := by
      rw [orbit_dist]; exact hr
    have hs' : 0 < (p.orbit node dt cw).speed := hs
    rw [orbitSteps_cons, ih (p.orbit node dt cw) hr' hs', orbit_dist, orbit_speed, orbit_offset,
      Vec2.rotate_rotate]
    congr 2
    rw [List.sum_cons]
    have hrne : node.pos.distance p.pos ≠ 0 := ne_of_gt hr
    have hsne : p.speed ≠ 0 := ne_of_gt hs
    cases cw <;> norm_num <;> field_simp <;> ring

theorem from_angle_two_pi : Vec2.from_angle (2 * π) = ⟨1, 0⟩ := by
  unfold Vec2.from_angle
  ext <;> simp

theorem from_angle_neg_two_pi : Vec2.from_angle (-(2 * π)) = ⟨1, 0⟩ := by
  unfold Vec2.from_angle
  ext <;> simp

/-! ## The collision test as a proposition -/

theorem collision_iff (s : State) :
    s.handle_collision = true ↔
      ((¬ ∃ n d, s.attached_node = Attach.SUCCESS n d) ∧
          |(|s.player.pos.x| - AREA_WIDTH / 2)| < s.player.bbox ∧
          s.player.time_disconnected > 0.1) ∨
        (∃ n ∈ s.nodes, s.player.pos.distance n.pos < s.player.bbox + n.radius) ∨
        (|s.player.pos.x| > AREA_WIDTH / 2 ∧ s.player.time_disconnected > MAX_TIME_OUTSIDE) := by
  rcases hA : s.attached_node with ⟨n, d⟩ | ⟨n, d⟩ | _
  · simp only [State.handle_collision, hA, Bool.false_or, Bool.or_eq_true, List.any_eq_true,
      decide_eq_true_eq]
    have hex : ∃ n2 d2, Attach.SUCCESS n d = Attach.SUCCESS n2 d2 := ⟨n, d, rfl⟩
    constructor
    · rintro (⟨m, hm, hlt⟩ | hout)
      · exact Or.inr (Or.inl ⟨m, hm, hlt⟩)
      · exact Or.inr (Or.inr hout)
    · rintro (⟨hno, _, _⟩ | ⟨m, hm, hlt⟩ | hout)
      · exact absurd hex hno
      · exact Or.inl ⟨m, hm, hlt⟩
      · exact Or.inr hout
  · simp only [State.handle_collision, hA, Bool.or_eq_true, List.any_eq_true,
      decide_eq_true_eq]
    have hnex : ¬ ∃ n2 d2, Attach.TARGET n d = Attach.SUCCESS n2 d2 := by
      rintro ⟨n2, d2, he⟩
      exact Attach.noConfusion he
    constructor
    · rintro ((⟨h1, h2⟩ | h) | h)
      · exact Or.inl ⟨hnex, h1, h2⟩
      · exact Or.inr (Or.inl h)
      · exact Or.inr (Or.inr h)
    · rintro (⟨_, h1, h2⟩ | h | h)
      · exact Or.inl (Or.inl ⟨h1, h2⟩)
      · exact Or.inl (Or.inr h)
      · exact Or.inr h
  · simp only [State.handle_collision, hA, Bool.or_eq_true, List.any_eq_true,
      decide_eq_true_eq]
    have hnex : ¬ ∃ n2 d2, Attach.None = Attach.SUCCESS n2 d2 := by
      rintro ⟨n2, d2, he⟩
      exact Attach.noConfusion he
    constructor
    · rintro ((⟨h1, h2⟩ | h) | h)
      · exact Or.inl ⟨hnex, h1, h2⟩
      · exact Or.inr (Or.inl h)
      · exact Or.inr (Or.inr h)
    · rintro (⟨_, h1, h2⟩ | h | h)
      · exact Or.inl (Or.inl ⟨h1, h2⟩)
      · exact Or.inl (Or.inr h)
      · exact Or.inr h

/-! ## Reachability invariants -/

theorem reachable_nodes (ns : List Node) (s : State) (h : Reachable ns s) : s.nodes = ns := by
  induction h with
  | init => rfl
  | update s dt hR ih =>
    rw [update_eq]
    split
    · rw [(reset_fields _).1, motionPhase_nodes]; exact ih
    · rw [motionPhase_nodes]; exact ih
  | press s hR ih => rw [(press_fields s).1]; exact ih
  | release s hR ih => exact ih

theorem reachable_bbox (ns : List Node) (s : State) (h : Reachable ns s) :
    s.player.bbox = 0.05 := by
  induction h with
  | init => rfl
  | update s dt hR ih =>
    rw [update_eq]
    split
    · rw [(reset_fields _).2.2.1, motionPhase_bbox]; exact ih
    · rw [motionPhase_bbox]; exact ih
  | press s hR ih => rw [(press_fields s).2.2.1]; exact ih
  | release s hR ih => exact ih

theorem viable_bound (s : State) (m : Node) (hv : viableMin s = Option.some m) :
    m ∈ s.nodes ∧ s.player.bbox + m.radius ≤ s.player.pos.distance m.pos := by
  obtain ⟨hmem, -, -⟩ := min_by_key_spec _ _ _ hv
  rw [mem_candidates_iff] at hmem
  refine ⟨hmem.1, ?_⟩
  rw [Vec2.distance_comm s.player.pos m.pos]
  exact hmem.2.2.2.1.trans (dist_cross_le s.player m)

theorem fallback_bound (s : State) (m : Node) (hf : fallbackMin s = Option.some m) :
    m ∈ s.nodes ∧ s.player.bbox + m.radius ≤ s.player.pos.distance m.pos := by
  obtain ⟨hmem, -, -⟩ := min_by_key_spec _ _ _ hf
  rw [List.mem_filter] at hmem
  refine ⟨hmem.1, ?_⟩
  rw [Vec2.distance_comm s.player.pos m.pos]
  exact ((filter_hitting_iff s.player m).mp hmem.2).trans (dist_cross_le s.player m)

/-- The attachment invariant: an attached (or targeted) node is one of the
field's nodes and lies at least contact distance away from the player. -/
def AttachInv (s : State) : Prop :=
  ∀ n d, (s.attached_node = Attach.SUCCESS n d ∨ s.attached_node = Attach.TARGET n d) →
    n ∈ s.nodes ∧ s.player.bbox + n.radius ≤ s.player.pos.distance n.pos

theorem reachable_attach_inv (ns : List Node) (s : State) (h : Reachable ns s) :
    AttachInv s := by
  induction h with
  | init =>
    intro n d hnd
    rcases hnd with he | he <;> exact absurd he (by simp [State.init])
  | update s dt hR ih =>
    rw [update_eq]
    split
    · intro n d hnd
      rcases hnd with he | he <;> exact absurd he (by simp [State.reset])
    · next hc =>
      have hcf : (motionPhase s dt).handle_collision = false := Bool.eq_false_iff.mpr hc
      have hbound := collision_false_no_hit _ hcf
      intro n d hnd
      rcases hA : s.attached_node with ⟨m, c⟩ | ⟨m, c⟩ | _
      · rw [motionPhase_success s dt m c hA] at hnd hbound ⊢
        replace hnd : s.attached_node = Attach.SUCCESS n d ∨
            s.attached_node = Attach.TARGET n d := hnd
        rw [hA] at hnd
        rcases hnd with he | he
        · obtain ⟨rfl, rfl⟩ := Attach.SUCCESS.inj he
          have hmem : m ∈ s.nodes := (ih m c (Or.inl hA)).1
          exact ⟨hmem, hbound m hmem⟩
        · exact absurd he (by simp)
      · by_cases hal : |alignCos s.player m| < 0.1
        · rw [motionPhase_target_aligned s dt m c hA hal] at hnd hbound ⊢
          replace hnd : Attach.SUCCESS m c = Attach.SUCCESS n d ∨
              Attach.SUCCESS m c = Attach.TARGET n d := hnd
          rcases hnd with he | he
          · obtain ⟨rfl, rfl⟩ := Attach.SUCCESS.inj he
            have hmem : m ∈ s.nodes := (ih m c (Or.inr hA)).1
            exact ⟨hmem, hbound m hmem⟩
          · exact absurd he (by simp)
        · rw [motionPhase_target_not_aligned s dt m c hA hal] at hnd hbound ⊢
          replace hnd : s.attached_node = Attach.SUCCESS n d ∨
              s.attached_node = Attach.TARGET n d := hnd
          rw [hA] at hnd
          rcases hnd with he | he
          · exact absurd he (by simp)
          · obtain ⟨rfl, rfl⟩ := Attach.TARGET.inj he
            have hmem : m ∈ s.nodes := (ih m c (Or.inr hA)).1
            exact ⟨hmem, hbound m hmem⟩
      · rw [motionPhase_detached s dt hA] at hnd
        replace hnd : s.attached_node = Attach.SUCCESS n d ∨
            s.attached_node = Attach.TARGET n d := hnd
        rw [hA] at hnd
        rcases hnd with he | he <;> exact absurd he (by simp)
  | press s hR ih =>
    rcases hA : s.attached_node with ⟨m, c⟩ | ⟨m, c⟩ | _
    · rw [press_noop s (by rw [hA]; simp)]; exact ih
    · rw [press_noop s (by rw [hA]; simp)]; exact ih
    · intro n d hnd
      rcases hv : viableMin s with _ | m
      · rcases hf : fallbackMin s with _ | m
        · simp only [State.handle_button_press, hA, hv, hf] at hnd
          rcases hnd with he | he <;> exact absurd he (by simp)
        · simp only [State.handle_button_press, hA, hv, hf] at hnd ⊢
          rcases hnd with he | he
          · obtain ⟨rfl, -⟩ : m = n ∧ get_is_clockwise s.player m = d := by
              have h1 := Attach.SUCCESS.inj he
              exact ⟨h1.1, h1.2⟩
            exact fallback_bound s m hf
          · exact absurd he (by simp)
      · simp only [State.handle_button_press, hA, hv] at hnd ⊢
        split_ifs at hnd ⊢ with hal
        · rcases hnd with he | he
          · obtain ⟨rfl, -⟩ : m = n ∧ get_is_clockwise s.player m = d := by
              have h1 := Attach.SUCCESS.inj he
              exact ⟨h1.1, h1.2⟩
            exact viable_bound s m hv
          · exact absurd he (by simp)
        · rcases hnd with he | he
          · exact absurd he (by simp)
          · obtain ⟨rfl, -⟩ : m = n ∧ get_is_clockwise s.player m = d := by
              have h1 := Attach.TARGET.inj he
              exact ⟨h1.1, h1.2⟩
            exact viable_bound s m hv
  | release s hR ih =>
    intro n d hnd
    rcases hnd with he | he <;> exact absurd he (by simp [State.handle_button_release])

/-- While the attachment is `Orbiting`, the disconnection clock reads zero. -/
def OrbitingZeroTime (s : State) : Prop :=
  ∀ n d, s.attached_node = Attach.SUCCESS n d → s.player.time_disconnected = 0

/-- C9: in every reachable state whose attachment is Orbiting,
`timeDisconnected` is 0: every transition into Orbiting zeroes it and the
tick does not accumulate it while Orbiting. -/
theorem C9_orbiting_implies_zero_time (ns : List Node) (s : State) (h : Reachable ns s) :
    OrbitingZeroTime s := by
  induction h with
  | init =>
    intro n d he
    exact absurd he (by simp [State.init])
  | update s dt hR ih =>
    rw [update_eq]
    split
    · intro n d he
      have ht := (reset_fields (motionPhase s dt)).2.2.2.2
      rw [ht]
      norm_num
    · next hc =>
      intro n d he
      rcases hA : s.attached_node with ⟨m, c⟩ | ⟨m, c⟩ | _
      · have hgoal : (motionPhase s dt).player.time_disconnected = s.player.time_disconnected := by
          rw [motionPhase_success s dt m c hA]
          exact orbit_time _ _ _ _
        rw [hgoal]
        exact ih m c hA
      · by_cases hal : |alignCos s.player m| < 0.1
        · have hgoal : (motionPhase s dt).player.time_disconnected = (0.0 : ℝ) := by
            rw [motionPhase_target_aligned s dt m c hA hal]
            exact orbit_time _ _ _ _
          rw [hgoal]
          norm_num
        · rw [motionPhase_target_not_aligned s dt m c hA hal] at he
          replace he : s.attached_node = Attach.SUCCESS n d := he
          rw [hA] at he
          exact absurd he (by simp)
      · rw [motionPhase_detached s dt hA] at he
        replace he : s.attached_node = Attach.SUCCESS n d := he
        rw [hA] at he
        exact absurd he (by simp)
  | press s hR ih =>
    rcases hA : s.attached_node with ⟨m, c⟩ | ⟨m, c⟩ | _
    · rw [press_noop s (by rw [hA]; simp)]; exact ih
    · rw [press_noop s (by rw [hA]; simp)]; exact ih
    · intro n d he
      rcases hv : viableMin s with _ | m
      · rcases hf : fallbackMin s with _ | m
        · simp only [State.handle_button_press, hA, hv, hf] at he
          exact absurd he (by simp)
        · simp only [State.handle_button_press, hA, hv, hf]
          norm_num
      · by_cases hal : |alignCos s.player m| < 0.1
        · simp only [State.handle_button_press, hA, hv, if_pos hal]
          norm_num
        · simp only [State.handle_button_press, hA, hv, if_neg hal] at he
          exact absurd he (by simp)
  | release s hR ih =>
    intro n d he
    replace he : Attach.None = Attach.SUCCESS n d := he
    exact absurd he (by simp)

/-! ## Concrete fixtures and evaluation lemmas

The player fixture is the start-of-run player: at the origin facing 0, so
its forward vector is `(0, 1)` and the cross point of any node is the
vertical projection `(0, node.y)`. -/

theorem forward_new : Vec2.from_angle (π / 2 - Player.new.facing) = Vec2.mk 0 1 := by
  have h : π / 2 - Player.new.facing = π / 2 := by
    show π / 2 - (0.0 : ℝ) = π / 2
    norm_num
  rw [h]
  unfold Vec2.from_angle
  ext <;> simp

theorem distance_eval (a b c d : ℝ) :
    (Vec2.mk a b).distance (Vec2.mk c d) =
      Real.sqrt ((a - c) * (a - c) + (b - d) * (b - d)) := by
  unfold Vec2.distance Vec2.length Vec2.length_squared
  simp

theorem sqrt_of_mul_self (a b : ℝ) (hb : 0 ≤ b) (h : a = b * b) : Real.sqrt a = b := by
  rw [h]
  exact Real.sqrt_mul_self hb

theorem align_dot_origin (n : Node) :
    (Vec2.from_angle (π / 2 - Player.new.facing)).dot (n.pos - Player.new.pos) = n.pos.y := by
  rw [forward_new, show Player.new.pos = Vec2.mk 0 0 from rfl]
  unfold Vec2.dot
  simp

theorem lensq_origin (n : Node) :
    (n.pos - Player.new.pos).length_squared = n.pos.x * n.pos.x + n.pos.y * n.pos.y := by
  rw [show Player.new.pos = Vec2.mk 0 0 from rfl]
  unfold Vec2.length_squared
  simp

theorem cross_origin (n : Node) : get_cross_point Player.new n = Vec2.mk 0 n.pos.y := by
  rw [get_cross_point_eq, align_dot_origin, forward_new,
    show Player.new.pos = Vec2.mk 0 0 from rfl]
  ext <;> simp

theorem alignCos_origin (n : Node) :
    alignCos Player.new n = n.pos.y / Real.sqrt (n.pos.x * n.pos.x + n.pos.y * n.pos.y) := by
  rw [alignCos_eq, align_dot_origin, lensq_origin]

theorem behind_cos_origin (n : Node) :
    Real.cos (((Vec2.from_angle (π / 2 - Player.new.facing)).normalize).angle_between
        (n.pos - Player.new.pos)) =
      n.pos.y / Real.sqrt (n.pos.x * n.pos.x + n.pos.y * n.pos.y) := by
  rw [Vec2.normalize_from_angle, Vec2.cos_angle_between, Vec2.length_squared_from_angle,
    one_mul, align_dot_origin, lensq_origin]

theorem dist_origin (n : Node) :
    Player.new.pos.distance n.pos = Real.sqrt (n.pos.x * n.pos.x + n.pos.y * n.pos.y) := by
  rw [show Player.new.pos = Vec2.mk 0 0 from rfl]
  unfold Vec2.distance Vec2.length Vec2.length_squared
  simp only [Vec2.sub_x, Vec2.sub_y, Vec2.mk_x, Vec2.mk_y]
  congr 1
  ring

theorem dist_cross_origin (n : Node) :
    n.pos.distance (get_cross_point Player.new n) = Real.sqrt (n.pos.x * n.pos.x) := by
  rw [cross_origin]
  unfold Vec2.distance Vec2.length Vec2.length_squared
  simp only [Vec2.sub_x, Vec2.sub_y, Vec2.mk_x, Vec2.mk_y]
  congr 1
  ring

/-- A node one unit to the right of the starting player: perpendicular to the
forward direction, so the alignment cosine is 0 and a press locks at once. -/
def nodeRight : Node := { pos := ⟨1, 0⟩, radius := 0.1, color := 0 }

/-- A node nearly straight ahead (`cos = 0.96`): well aligned in the spec's
`|cos| ≥ 0.9` sense, yet the code only targets it. -/
def nodeAhead : Node := { pos := ⟨0.28, 0.96⟩, radius := 0.1, color := 0 }

/-- A node behind and to the right of the starting player: not viable (it is
behind), but it passes the fallback `filter_hitting_nodes` test. -/
def nodeBehind : Node := { pos := ⟨1, -1⟩, radius := 0.1, color := 0 }

/-- A node at the origin, orbited by `playerRight` at radius 1. -/
def nodeOrigin : Node := { pos := ⟨0, 0⟩, radius := 0.1, color := 0 }

/-- A player one unit to the right of `nodeOrigin`, with the run's constants. -/
def playerRight : Player :=
  { pos := ⟨1, 0⟩, speed := 4.0, facing := 0.0, bbox := 0.05, time_disconnected := 0.0 }

theorem nodeRight_viable : filter_deadly_nodes Player.new nodeRight = true := by
  refine (filter_deadly_iff _ _).mpr ⟨?_, ?_, ?_, ?_⟩
  · rw [behind_cos_origin]
    rw [show nodeRight.pos.y = (0 : ℝ) from rfl]
    simp
  · rw [cross_origin]
    simp only [Vec2.mk_x]
    rw [show (AREA_WIDTH : ℝ) = 480 / 848 * 5 from rfl]
    norm_num
  · rw [dist_cross_origin, show nodeRight.pos.x = (1 : ℝ) from rfl,
      sqrt_of_mul_self ((1 : ℝ) * 1) 1 (by norm_num) (by norm_num)]
    show (0.05 : ℝ) + 0.1 ≤ 1
    norm_num
  · rw [dist_origin, show nodeRight.pos.x = (1 : ℝ) from rfl,
      show nodeRight.pos.y = (0 : ℝ) from rfl,
      sqrt_of_mul_self ((1 : ℝ) * 1 + 0 * 0) 1 (by norm_num) (by norm_num)]
    norm_num

theorem viableMin_nodeRight : viableMin (State.init [nodeRight]) = Option.some nodeRight := by
  have hc : candidates (State.init [nodeRight]) = [nodeRight] := by
    unfold candidates State.init
    simp [List.filter_cons, nodeRight_viable]
  unfold viableMin
  rw [hc]
  rfl

theorem alignCos_nodeRight : alignCos Player.new nodeRight = 0 := by
  rw [alignCos_origin, show nodeRight.pos.y = (0 : ℝ) from rfl]
  simp

theorem nodeAhead_viable : filter_deadly_nodes Player.new nodeAhead = true := by
  refine (filter_deadly_iff _ _).mpr ⟨?_, ?_, ?_, ?_⟩
  · rw [behind_cos_origin, show nodeAhead.pos.y = (0.96 : ℝ) from rfl,
      show nodeAhead.pos.x = (0.28 : ℝ) from rfl,
      show ((0.28 : ℝ) * 0.28 + 0.96 * 0.96) = 1 by norm_num, Real.sqrt_one]
    norm_num
  · rw [cross_origin]
    simp only [Vec2.mk_x]
    rw [show (AREA_WIDTH : ℝ) = 480 / 848 * 5 from rfl]
    norm_num
  · rw [dist_cross_origin, show nodeAhead.pos.x = (0.28 : ℝ) from rfl,
      sqrt_of_mul_self ((0.28 : ℝ) * 0.28) 0.28 (by norm_num) (by norm_num)]
    show (0.05 : ℝ) + 0.1 ≤ 0.28
    norm_num
  · rw [dist_origin, show nodeAhead.pos.x = (0.28 : ℝ) from rfl,
      show nodeAhead.pos.y = (0.96 : ℝ) from rfl,
      show ((0.28 : ℝ) * 0.28 + 0.96 * 0.96) = 1 by norm_num, Real.sqrt_one]
    norm_num

theorem viableMin_nodeAhead : viableMin (State.init [nodeAhead]) = Option.some nodeAhead := by
  have hc : candidates (State.init [nodeAhead]) = [nodeAhead] := by
    unfold candidates State.init
    simp [List.filter_cons, nodeAhead_viable]
  unfold viableMin
  rw [hc]
  rfl

theorem alignCos_nodeAhead : alignCos Player.new nodeAhead = 0.96 := by
  rw [alignCos_origin, show nodeAhead.pos.y = (0.96 : ℝ) from rfl,
    show nodeAhead.pos.x = (0.28 : ℝ) from rfl,
    show ((0.28 : ℝ) * 0.28 + 0.96 * 0.96) = 1 by norm_num, Real.sqrt_one, div_one]

theorem nodeBehind_not_viable : filter_deadly_nodes Player.new nodeBehind = false := by
  rw [Bool.eq_false_iff]
  intro hc
  have h := ((filter_deadly_iff _ _).mp hc).1
  rw [behind_cos_origin, show nodeBehind.pos.y = (-1 : ℝ) from rfl,
    show nodeBehind.pos.x = (1 : ℝ) from rfl] at h
  have hs : 0 < Real.sqrt ((1 : ℝ) * 1 + (-1) * (-1)) := Real.sqrt_pos.mpr (by norm_num)
  have hneg : (-1 : ℝ) / Real.sqrt ((1 : ℝ) * 1 + (-1) * (-1)) < 0 :=
    div_neg_of_neg_of_pos (by norm_num) hs
  linarith

theorem viableMin_nodeBehind : viableMin (State.init [nodeBehind]) = Option.none := by
  have hc : candidates (State.init [nodeBehind]) = [] := by
    unfold candidates State.init
    simp [List.filter_cons, nodeBehind_not_viable]
  unfold viableMin
  rw [hc]
  rfl

theorem nodeBehind_not_hitting : filter_hitting_nodes Player.new nodeBehind = true := by
  refine (filter_hitting_iff _ _).mpr ?_
  rw [dist_cross_origin, show nodeBehind.pos.x = (1 : ℝ) from rfl,
    sqrt_of_mul_self ((1 : ℝ) * 1) 1 (by norm_num) (by norm_num)]
  show (0.05 : ℝ) + 0.1 ≤ 1
  norm_num

theorem fallbackMin_nodeBehind :
    fallbackMin (State.init [nodeBehind]) = Option.some nodeBehind := by
  have hf : (State.init [nodeBehind]).nodes.filter
      (filter_hitting_nodes (State.init [nodeBehind]).player) = [nodeBehind] := by
    show List.filter (filter_hitting_nodes Player.new) [nodeBehind] = [nodeBehind]
    simp [List.filter_cons, nodeBehind_not_hitting]
  unfold fallbackMin
  rw [hf]
  rfl

theorem dist_node_playerRight : nodeOrigin.pos.distance playerRight.pos = 1 := by
  rw [show nodeOrigin.pos = Vec2.mk 0 0 from rfl, show playerRight.pos = Vec2.mk 1 0 from rfl,
    distance_eval]
  exact sqrt_of_mul_self _ 1 (by norm_num) (by norm_num)

theorem from_angle_pi_div_two : Vec2.from_angle (π / 2) = Vec2.mk 0 1 := by
  unfold Vec2.from_angle
  ext <;> simp

theorem orbit_playerRight_pos :
    (playerRight.orbit nodeOrigin (π / 8) false).pos = Vec2.mk 0 1 := by
  rw [orbit_pos, dist_node_playerRight]
  have hang : (if false then (-1.0 : ℝ) else 1.0) * 2 * π * (π / 8) /
      (2 * π * 1 / playerRight.speed) = π / 2 := by
    show (1.0 : ℝ) * 2 * π * (π / 8) / (2 * π * 1 / (4.0 : ℝ)) = π / 2
    have hπ := Real.pi_ne_zero
    field_simp
    ring
  rw [hang, from_angle_pi_div_two,
    show playerRight.pos - nodeOrigin.pos = Vec2.mk 1 0 from by ext <;> simp [playerRight, nodeOrigin],
    show nodeOrigin.pos = Vec2.mk 0 0 from rfl]
  unfold Vec2.rotate
  ext <;> simp

theorem orbit_playerRight_facing :
    (playerRight.orbit nodeOrigin (π / 8) false).facing = 0 := by
  have h : (playerRight.orbit nodeOrigin (π / 8) false).facing =
      (playerRight.pos - nodeOrigin.pos).angle_between (Vec2.mk 1 0) := rfl
  rw [h,
    show playerRight.pos - nodeOrigin.pos = Vec2.mk 1 0 from by ext <;> simp [playerRight, nodeOrigin]]
  unfold Vec2.angle_between Vec2.perp_dot Vec2.dot Vec2.length_squared
  norm_num [Real.sqrt_one, Real.arccos_one]

theorem angle_between_up_right : (Vec2.mk 0 1).angle_between (Vec2.mk 1 0) = -(π / 2) := by
  unfold Vec2.angle_between Vec2.perp_dot Vec2.dot Vec2.length_squared
  norm_num [Real.sqrt_one, Real.arccos_zero]

/-! ## The claims -/

/-- What an attach press does when a viable candidate `n` was selected:
lock into orbit (resetting the disconnection clock) exactly when
`|cos| < 0.1`, otherwise start targeting. -/
def ImmediateLockBehavior (s : State) (n : Node) : Prop :=
  s.handle_button_press =
    if |alignCos s.player n| < 0.1 then
      { s with
        attached_node := Attach.SUCCESS n (get_is_clockwise s.player n)
        player := { s.player with time_disconnected := 0.0 } }
    else { s with attached_node := Attach.TARGET n (get_is_clockwise s.player n) }

/-- What a tick does to an aligned targeting state: transition to orbit,
zero the disconnection clock, and run the orbit integrator in the same
tick, before the collision check. -/
def TargetingTickBehavior (s : State) (n : Node) (d : Bool) (dt : ℝ) : Prop :=
  s.update dt =
    (let p2 := Player.orbit { s.player with time_disconnected := 0.0 } n dt d
     let s2 : State :=
       { s with
         attached_node := Attach.SUCCESS n d
         player := p2
         prev_points := trail_push s.prev_points p2.pos }
     if s2.handle_collision = true then s2.reset else s2)

/-- C1 (amended): the alignment condition that locks the player into orbit is
`|cos θ| < 0.1` (the node is nearly perpendicular to the forward direction),
not `|cos θ| ≥ 0.9`: at an attach request while Detached with a viable
candidate the machine locks into Orbiting and zeroes `timeDisconnected`
exactly when `|cos θ| < 0.1` and otherwise enters Targeting; and on a tick
while Targeting with `|cos θ| < 0.1` it locks, zeroes `timeDisconnected` and
applies the orbit integrator in that same tick. -/
theorem C1_alignment_lock_threshold :
    (∀ (s : State) (n : Node), s.attached_node = Attach.None →
      viableMin s = Option.some n → ImmediateLockBehavior s n) ∧
    (∀ (s : State) (n : Node) (d : Bool) (dt : ℝ), s.attached_node = Attach.TARGET n d →
      |alignCos s.player n| < 0.1 → TargetingTickBehavior s n d dt) := by
  constructor
  · intro s n hA hv
    unfold ImmediateLockBehavior
    simp only [State.handle_button_press, hA, hv]
  · intro s n d dt hA hal
    unfold TargetingTickBehavior
    rw [update_eq, motionPhase_target_aligned s dt n d hA hal]

/-- C1 counterexample: a Detached player at the origin facing up, with the
single viable node `nodeAhead` at `(0.28, 0.96)`.  The alignment cosine is
`0.96 ≥ 0.9`, so the claim as stated requires an immediate lock into
Orbiting; the code instead enters Targeting. -/
theorem C1_counterexample :
    viableMin (State.init [nodeAhead]) = Option.some nodeAhead ∧
      0.9 ≤ |alignCos Player.new nodeAhead| ∧
      (State.init [nodeAhead]).handle_button_press.attached_node =
        Attach.TARGET nodeAhead (get_is_clockwise Player.new nodeAhead) := by
  refine ⟨viableMin_nodeAhead, ?_, ?_⟩
  · rw [alignCos_nodeAhead, abs_of_nonneg (show (0 : ℝ) ≤ 0.96 by norm_num)]
    norm_num
  · have h0 : (State.init [nodeAhead]).attached_node = Attach.None := rfl
    have hnl : ¬ |alignCos (State.init [nodeAhead]).player nodeAhead| < 0.1 := by
      show ¬ |alignCos Player.new nodeAhead| < 0.1
      rw [alignCos_nodeAhead, abs_of_nonneg (show (0 : ℝ) ≤ 0.96 by norm_num)]
      norm_num
    simp only [State.handle_button_press, h0, viableMin_nodeAhead, if_neg hnl]
    rfl

/-- The Targeting fixture for the C1 witness: the viable perpendicular node
is being targeted. -/
def targetingState : State :=
  { player := Player.new, nodes := [nodeRight], attached_node := Attach.TARGET nodeRight true,
    prev_points := [] }

/-- C1 witness: at the perpendicular node `nodeRight` the alignment cosine is
0, so both the press and the targeting tick lock into orbit. -/
theorem C1_witness :
    ImmediateLockBehavior (State.init [nodeRight]) nodeRight ∧
      TargetingTickBehavior targetingState nodeRight true 0 := by
  constructor
  · exact C1_alignment_lock_threshold.1 (State.init [nodeRight]) nodeRight rfl viableMin_nodeRight
  · refine C1_alignment_lock_threshold.2 targetingState nodeRight true 0 rfl ?_
    show |alignCos Player.new nodeRight| < 0.1
    rw [alignCos_nodeRight]
    norm_num

/-- The candidate set is exactly the nodes that are not behind the player,
whose cross point is inside the corridor, whose cross point clears the node
by at least `bbox + radius`, and which are within 2 world units. -/
def CandidateCharacterization (s : State) : Prop :=
  ∀ n, n ∈ candidates s ↔
    (n ∈ s.nodes ∧
      0 ≤ Real.cos (((Vec2.from_angle (π / 2 - s.player.facing)).normalize).angle_between
        (n.pos - s.player.pos)) ∧
      |(get_cross_point s.player n).x| ≤ AREA_WIDTH / 2 ∧
      s.player.bbox + n.radius ≤ n.pos.distance (get_cross_point s.player n) ∧
      s.player.pos.distance n.pos ≤ 2.0)

/-- The node of the attachment variant, when there is one. -/
def attachedNodeOf (s : State) : Option Node :=
  match s.attached_node with
  | Attach.SUCCESS n _ => Option.some n
  | Attach.TARGET n _ => Option.some n
  | Attach.None => Option.none

/-- The selected candidate is a member of the candidate list, minimizes the
squared distance from the player to its cross point, is the first of the
minima in iteration order, and is the node the press attaches to. -/
def SelectionSpec (s : State) : Prop :=
  ∀ n, viableMin s = Option.some n →
    n ∈ candidates s ∧ (∀ m ∈ candidates s, selKey s n ≤ selKey s m) ∧
      (∃ l1 l2, candidates s = l1 ++ n :: l2 ∧ ∀ m ∈ l1, selKey s n < selKey s m) ∧
      attachedNodeOf s.handle_button_press = Option.some n

/-- C2: at an attach request while Detached, the candidate set consists
exactly of the nodes passing the four viability conditions, and the selected
node is the first candidate minimizing squared distance from the player to
its cross point. -/
theorem C2_candidate_selection (s : State) (hd : s.attached_node = Attach.None) :
    CandidateCharacterization s ∧ SelectionSpec s := by
  refine ⟨fun n => mem_candidates_iff s n, ?_⟩
  intro n hv
  obtain ⟨hmem, hmin, l1, l2, hdec, hfirst⟩ := min_by_key_spec _ _ _ hv
  refine ⟨hmem, hmin, ⟨l1, l2, hdec, hfirst⟩, ?_⟩
  by_cases hal : |alignCos s.player n| < 0.1
  · simp only [attachedNodeOf, State.handle_button_press, hd, hv, if_pos hal]
  · simp only [attachedNodeOf, State.handle_button_press, hd, hv, if_neg hal]

/-- C2 witness: the characterization instantiated at the concrete
single-node world with the perpendicular node. -/
theorem C2_witness :
    CandidateCharacterization (State.init [nodeRight]) ∧ SelectionSpec (State.init [nodeRight]) :=
  C2_candidate_selection (State.init [nodeRight]) rfl

/-- C3: an orbit step rotates the offset vector about the node by the angle
`ω * dt` with `ω = 2π / period`, `period = 2π r / speed`, sign flipped when
clockwise; the distance to the node is unchanged by every step and every
sequence of steps, and steps whose `dt` sum to one full period return the
offset to its initial value. -/
theorem C3_orbit_rotation_conservation (p : Player) (node : Node) (cw : Bool)
    (hr : 0 < node.pos.distance p.pos) (hs : 0 < p.speed) :
    (∀ dt, (p.orbit node dt cw).pos =
      node.pos + (Vec2.from_angle ((if cw then (-1.0 : ℝ) else 1.0) *
        (2 * π / (2 * π * node.pos.distance p.pos / p.speed)) * dt)).rotate
        (p.pos - node.pos)) ∧
    (∀ dt, node.pos.distance (p.orbit node dt cw).pos = node.pos.distance p.pos) ∧
    (∀ dts : List ℝ, node.pos.distance (orbitSteps p node dts cw).pos =
      node.pos.distance p.pos) ∧
    (∀ dts : List ℝ, dts.sum = 2 * π * node.pos.distance p.pos / p.speed →
      (orbitSteps p node dts cw).pos - node.pos = p.pos - node.pos) := by
  refine ⟨?_, fun dt => orbit_dist p node dt cw, fun dts => orbitSteps_dist p node dts cw, ?_⟩
  · intro dt
    rw [orbit_pos, Vec2.add_comm']
    congr 2
    ring
  · intro dts hsum
    rw [orbitSteps_offset node cw dts p hr hs, hsum]
    have hang : (if cw then (-1.0 : ℝ) else 1.0) * p.speed *
        (2 * π * node.pos.distance p.pos / p.speed) / node.pos.distance p.pos =
        (if cw then (-1.0 : ℝ) else 1.0) * (2 * π) := by
      have h1 : node.pos.distance p.pos ≠ 0 := ne_of_gt hr
      have h2 : p.speed ≠ 0 := ne_of_gt hs
      field_simp
      ring
    rw [hang]
    cases cw
    · rw [show ((if false then (-1.0 : ℝ) else 1.0) * (2 * π)) = 2 * π by norm_num,
        from_angle_two_pi, Vec2.one_zero_rotate]
    · rw [show ((if true then (-1.0 : ℝ) else 1.0) * (2 * π)) = -(2 * π) by norm_num,
        from_angle_neg_two_pi, Vec2.one_zero_rotate]

/-- C3 witness: orbit conservation at the concrete radius-1 fixture over the
step sequence `[1, 2]`. -/
theorem C3_witness :
    nodeOrigin.pos.distance (orbitSteps playerRight nodeOrigin [1, 2] false).pos =
      nodeOrigin.pos.distance playerRight.pos :=
  (C3_orbit_rotation_conservation playerRight nodeOrigin false
    (by rw [dist_node_playerRight]; norm_num)
    (by show (0 : ℝ) < 4.0; norm_num)).2.2.1 [1, 2]

/-- C4 (amended): after an orbit step the facing equals the angle between the
offset vector as captured BEFORE the rotation and the direction-dependent
reference axis; the code does not recompute it from the rotated offset. -/
theorem C4_facing_from_pre_rotation_offset :
    ∀ (p : Player) (node : Node) (dt : ℝ) (cw : Bool),
      (p.orbit node dt cw).facing =
        (p.pos - node.pos).angle_between (if cw then Vec2.mk (-1) 0 else Vec2.mk 1 0) :=
  fun _ _ _ _ => rfl

/-- C4 counterexample: at the radius-1 fixture with a quarter-period step the
facing is 0 (computed from the pre-rotation offset `(1,0)`), while the angle
between the post-rotation offset `(0,1)` and the reference axis is `-π/2`. -/
theorem C4_counterexample :
    (playerRight.orbit nodeOrigin (π / 8) false).facing ≠
      ((playerRight.orbit nodeOrigin (π / 8) false).pos - nodeOrigin.pos).angle_between
        (Vec2.mk 1 0) := by
  rw [orbit_playerRight_facing, orbit_playerRight_pos,
    show Vec2.mk 0 1 - nodeOrigin.pos = Vec2.mk 0 1 from by ext <;> simp [nodeOrigin],
    angle_between_up_right]
  intro h
  have hπ : π = 0 := by linarith
  exact Real.pi_ne_zero hπ

/-- C5: on every tick the collision test runs after the motion phase, and it
triggers exactly when the player touches a side wall while not Orbiting with
`timeDisconnected > 0.1`, or overlaps any node, or is outside the corridor
with `timeDisconnected > 0.5` (both comparisons strict). -/
theorem C5_collision_conditions :
    (∀ s : State, s.handle_collision = true ↔
      ((¬ ∃ n d, s.attached_node = Attach.SUCCESS n d) ∧
          |(|s.player.pos.x| - AREA_WIDTH / 2)| < s.player.bbox ∧
          s.player.time_disconnected > 0.1) ∨
        (∃ n ∈ s.nodes, s.player.pos.distance n.pos < s.player.bbox + n.radius) ∨
        (|s.player.pos.x| > AREA_WIDTH / 2 ∧ s.player.time_disconnected > MAX_TIME_OUTSIDE)) ∧
    (∀ (s : State) (dt : ℝ), s.update dt =
      if (motionPhase s dt).handle_collision = true then (motionPhase s dt).reset
      else motionPhase s dt) :=
  ⟨collision_iff, update_eq⟩

/-- What the fallback lock produces: a direct `Orbiting` attachment to `n`
with the clock zeroed, where `n` passes the not-colliding-along-ray filter
and is nearest to the player among the nodes that pass it. -/
def FallbackBehavior (s : State) (n : Node) : Prop :=
  s.handle_button_press =
    { s with
      attached_node := Attach.SUCCESS n (get_is_clockwise s.player n)
      player := { s.player with time_disconnected := 0.0 } } ∧
  n ∈ s.nodes.filter (filter_hitting_nodes s.player) ∧
  (∀ m ∈ s.nodes.filter (filter_hitting_nodes s.player),
    n.pos.distance s.player.pos ≤ m.pos.distance s.player.pos)

/-- C6: if no node is viable at an attach request while Detached, the machine
falls back to the nodes not excluded by the colliding-along-ray test, locks
directly into Orbiting around the nearest of them (by straight-line
distance), and stays Detached when there is none. -/
theorem C6_fallback_nearest :
    (∀ (s : State) (m : Node), m ∈ s.nodes.filter (filter_hitting_nodes s.player) ↔
      (m ∈ s.nodes ∧ s.player.bbox + m.radius ≤ m.pos.distance (get_cross_point s.player m))) ∧
    (∀ (s : State) (n : Node), s.attached_node = Attach.None → viableMin s = Option.none →
      fallbackMin s = Option.some n → FallbackBehavior s n) ∧
    (∀ s : State, s.attached_node = Attach.None → viableMin s = Option.none →
      fallbackMin s = Option.none → s.handle_button_press = s) := by
  refine ⟨?_, ?_, ?_⟩
  · intro s m
    rw [List.mem_filter, filter_hitting_iff]
  · intro s n hA hv hf
    obtain ⟨hmem, hmin, -⟩ := min_by_key_spec _ _ _ hf
    refine ⟨?_, hmem, ?_⟩
    · simp only [State.handle_button_press, hA, hv, hf]
    · intro m hm
      have h2 := hmin m hm
      rw [show n.pos.distance s.player.pos = Real.sqrt (n.pos.distance_squared s.player.pos)
          from rfl,
        show m.pos.distance s.player.pos = Real.sqrt (m.pos.distance_squared s.player.pos)
          from rfl]
      exact Real.sqrt_le_sqrt h2
  · intro s hA hv hf
    simp only [State.handle_button_press, hA, hv, hf]
    exact eta_none s hA

/-- C6 witness: the behind node is rejected by the viability filter but kept
by the fallback filter, so a press locks straight into orbit around it; with
no nodes at all the press is a no-op. -/
theorem C6_witness :
    FallbackBehavior (State.init [nodeBehind]) nodeBehind ∧
      (State.init ([] : List Node)).handle_button_press = State.init ([] : List Node) :=
  ⟨C6_fallback_nearest.2.1 (State.init [nodeBehind]) nodeBehind rfl viableMin_nodeBehind
      fallbackMin_nodeBehind,
    C6_fallback_nearest.2.2 (State.init ([] : List Node)) rfl rfl rfl⟩

/-- The orbit integrator only ever sees a strictly positive radius: any
attached or targeted node of the state is strictly away from the player. -/
def OrbitRadiusPositive (s : State) : Prop :=
  ∀ n d, (s.attached_node = Attach.SUCCESS n d ∨ s.attached_node = Attach.TARGET n d) →
    0 < n.pos.distance s.player.pos

/-- C7: in every reachable state (for a node field with nonnegative radii)
the player is at least contact distance from the attached or targeted node,
so the degenerate zero-radius orbit step can never execute: any state with
`player.pos = node.pos` is wiped by the collision reset at the end of the
tick that produced it, before the next orbit step. -/
theorem C7_no_degenerate_orbit (ns : List Node) (s : State)
    (hrad : ∀ n ∈ ns, 0 ≤ n.radius) (h : Reachable ns s) : OrbitRadiusPositive s := by
  intro n d hnd
  have hinv := reachable_attach_inv ns s h n d hnd
  have hb : s.player.bbox = 0.05 := reachable_bbox ns s h
  have hn : n ∈ ns := by rw [← reachable_nodes ns s h]; exact hinv.1
  have hr : 0 ≤ n.radius := hrad n hn
  rw [Vec2.distance_comm]
  have hpos : (0 : ℝ) < s.player.bbox + n.radius := by
    rw [hb]
    norm_num
    linarith
  exact hpos.trans_le hinv.2

/-- C7 witness: the invariant instantiated at the freshly started empty
world. -/
theorem C7_witness : OrbitRadiusPositive (State.init ([] : List Node)) :=
  C7_no_degenerate_orbit [] (State.init ([] : List Node))
    (fun n hn => absurd hn (List.not_mem_nil n)) Reachable.init

/-- C8: reset puts the player at the origin with zero facing and zero
`timeDisconnected`, forces Detached, clears the trail, keeps the node
sequence, and is idempotent. -/
theorem C8_reset_state (s : State) :
    s.reset.player.pos = Vec2.mk 0 0 ∧ s.reset.player.facing = 0 ∧
      s.reset.player.time_disconnected = 0 ∧ s.reset.attached_node = Attach.None ∧
      s.reset.prev_points = [] ∧ s.reset.nodes = s.nodes ∧ s.reset.reset = s.reset := by
  refine ⟨rfl, ?_, ?_, rfl, rfl, rfl, rfl⟩
  · show (0.0 : ℝ) = 0
    norm_num
  · show (0.0 : ℝ) = 0
    norm_num

/-- C10: an attach press while Targeting or Orbiting leaves the whole world
state unchanged. -/
theorem C10_press_noop_when_attached (s : State) (n : Node) (d : Bool)
    (h : s.attached_node = Attach.TARGET n d ∨ s.attached_node = Attach.SUCCESS n d) :
    s.handle_button_press = s := by
  apply press_noop
  rcases h with he | he <;> rw [he] <;> simp

/-- A concrete orbiting world for the C10 witness. -/
def orbitingState : State :=
  { player := Player.new, nodes := [nodeRight], attached_node := Attach.SUCCESS nodeRight true,
    prev_points := [] }

/-- C10 witness: pressing attach while orbiting the concrete fixture changes
nothing. -/
theorem C10_witness : orbitingState.handle_button_press = orbitingState :=
  C10_press_noop_when_attached orbitingState nodeRight true (Or.inr rfl)

/-- C9 witness: the invariant instantiated at the freshly started empty
world. -/
theorem C9_witness : OrbitingZeroTime (State.init ([] : List Node)) :=
  C9_orbiting_implies_zero_time [] (State.init ([] : List Node)) Reachable.init

end

end OneMoreLine
